import Mathlib

/-!
Shallow embedding of the PDF data-extraction pipeline
(`app/cache_service.py`, `app/pdf_extractor.py`, `app/llm_service.py`,
`app/extraction_service.py`, `app/main.py`).

External collaborators are modelled as explicit oracle parameters:
`sha256` for the hash primitive, a PDF parsing oracle for `pdfplumber`,
a completion oracle for the OpenAI endpoint, and a file-system oracle for
the batch endpoint.  Wall-clock time (`time.time()`) is not modelled: the
`processing_time` field is kept in the result envelope but fixed at `0`.
Monetary cost is modelled as an exact rational; the concrete cost
arithmetic of the source (including the sample 100/20 token case) is
exact in binary64 as well, so no rounding behaviour is lost.
-/

namespace PdfExtract

/-- File contents (`bytes` in Python), modelled as a list of byte values. -/
abbrev ByteSeq := List Nat

/-- An extraction schema: a Python `dict` of field name to description,
modelled as an insertion-ordered association list with unique keys. -/
abbrev Schema := List (String × String)

/-- A JSON object with string-or-null values, as produced by
`json.loads` on the model response: field name to value-or-null. -/
abbrev JsonObj := List (String × Option String)

/-- Escaping of one character inside a JSON string literal, as done by
`json.dumps` for quote and backslash (the characters relevant here). -/
def jsonEscapeChar (c : Char) : String :=
  if c = '\"' then "\\\"" else if c = '\\' then "\\\\" else String.singleton c

/-- A JSON string literal: `json.dumps` quoting of a plain string. -/
def jsonQuote (s : String) : String :=
  "\"" ++ String.join (s.data.map jsonEscapeChar) ++ "\""

/-- Order on schema entries by field name; `json.dumps(..., sort_keys=True)`
sorts the keys lexicographically. -/
def keyLe (a b : String × String) : Prop := a.1 ≤ b.1

instance : DecidableRel keyLe := fun a b => inferInstanceAs (Decidable (a.1 ≤ b.1))

instance : IsTotal (String × String) keyLe := ⟨fun a b => le_total a.1 b.1⟩

instance : IsTrans (String × String) keyLe := ⟨fun _ _ _ h1 h2 => le_trans h1 h2⟩

/-- Model of `json.dumps(extraction_schema, sort_keys=True)`: serialize the schema
as a JSON object with keys sorted lexicographically, with the default
`", "` and `": "` separators. -/
def dumpsSorted (extraction_schema : Schema) : String :=
  "\x7b" ++
    String.intercalate ", "
      ((List.insertionSort keyLe extraction_schema).map
        (fun p => jsonQuote p.1 ++ ": " ++ jsonQuote p.2)) ++
  "\x7d"

/-- Model of `str.encode()`: the bytes of a string (one code point per entry in
this model; only determinism and injectivity-in-practice matter here). -/
def strEncode (s : String) : ByteSeq := s.data.map Char.toNat

/-- Model of the private key builder of `CacheService`: sha256 of the PDF bytes and sha256 of
the canonical (key-sorted) JSON serialization of the schema, joined by a
colon.  The sha256 primitive is an oracle parameter. -/
def generate_key (sha256 : ByteSeq → String)
    (pdf_content : ByteSeq) (extraction_schema : Schema) : String :=
  sha256 pdf_content ++ ":" ++ sha256 (strEncode (dumpsSorted extraction_schema))

/-- The uniform result envelope of `ExtractionService.extract` (also the
shape of the values stored in the cache and of each batch item response). -/
structure ExtractionResult where
  extracted_data : JsonObj
  cost : ℚ
  processing_time : ℚ
  cache_hit : Bool
deriving DecidableEq

/-- The in-memory cache: a Python `dict` from composite key to stored
result, modelled as an insertion-ordered association list. -/
abbrev Cache := List (String × ExtractionResult)

/-- Model of `dict.get`: first binding of a key, if any. -/
def cacheLookup (c : Cache) (k : String) : Option ExtractionResult :=
  match c with
  | [] => none
  | (k2, v) :: rest => if k2 = k then some v else cacheLookup rest k

/-- Model of dict assignment: replace the binding in place if the key is present,
otherwise append a new binding. -/
def cacheInsert (c : Cache) (k : String) (v : ExtractionResult) : Cache :=
  match c with
  | [] => [(k, v)]
  | (k2, v2) :: rest =>
    if k2 = k then (k, v) :: rest else (k2, v2) :: cacheInsert rest k v

/-- Model of `CacheService.get`: look up the composite key. -/
def CacheService.get (sha256 : ByteSeq → String) (c : Cache)
    (pdf_content : ByteSeq) (extraction_schema : Schema) : Option ExtractionResult :=
  cacheLookup c (generate_key sha256 pdf_content extraction_schema)

/-- Model of `CacheService.set`: store the result under the composite key. -/
def CacheService.set (sha256 : ByteSeq → String) (c : Cache)
    (pdf_content : ByteSeq) (extraction_schema : Schema)
    (result : ExtractionResult) : Cache :=
  cacheInsert c (generate_key sha256 pdf_content extraction_schema) result

/-- Model of `CacheService.size`: number of cached entries. -/
def CacheService.size (c : Cache) : Nat := c.length

/-- Oracle for `pdfplumber`: parsing a byte string either fails (any
exception while opening or extracting) or yields the list of pages, each
page carrying the result of `page.extract_text()` (a string or `None`). -/
abbrev PdfOracle := ByteSeq → Except Unit (List (Option String))

/-- Model of `extract_text_from_pdf`: open the document, return `None` on any
failure or if there are zero pages, else the text of page 0; the source
returns `text if text else None`, so only empty text (or `None`) from
the page is mapped to `None`. -/
def extract_text_from_pdf (pdfParse : PdfOracle) (pdf_content : ByteSeq) :
    Option String :=
  match pdfParse pdf_content with
  | .error _ => none
  | .ok [] => none
  | .ok (page0 :: _) =>
    match page0 with
    | none => none
    | some text => if text = "" then none else some text

/-- One completion response: token usage plus the message content after
`json.loads`; `parsed = none` stands for content that fails to load as a
JSON object (which raises inside the `try` block). -/
structure LLMResponse where
  parsed : Option JsonObj
  prompt_tokens : Nat
  completion_tokens : Nat

/-- Oracle for the remote completion endpoint: the call either raises
(`Except.error`) or returns a response. -/
abbrev LLMOracle := String → Except Unit LLMResponse

/-- Model of `dict.get(field)` on the parsed JSON object: the stored value if the
field is present (possibly JSON null), else `None`. -/
def jsonGet (j : JsonObj) (f : String) : Option String :=
  match j with
  | [] => none
  | (k, v) :: rest => if k = f then v else jsonGet rest f

/-- All schema fields mapped to the absence marker:
`{field: None for field in extraction_schema.keys()}`. -/
def allAbsent (extraction_schema : Schema) : JsonObj :=
  extraction_schema.map (fun p => (p.1, (none : Option String)))

/-- Model of the prompt builder of `LLMService`: minimal-token prompt with one line per
schema field, an optional label hint, and the raw text appended. -/
def build_prompt (text : String) (extraction_schema : Schema)
    (label : Option String) : String :=
  let schema_text :=
    String.intercalate "\n"
      (extraction_schema.map (fun p => "\"" ++ p.1 ++ "\": " ++ p.2))
  let label_context :=
    match label with
    | some l => "\nDocument type (label): " ++ l ++ "\n"
    | none => ""
  "Extract the following fields from this text. Return JSON only." ++
    label_context ++ "\n\nFields to extract:\n" ++ schema_text ++
    "\n\nText:\n" ++ text

/-- Per-token pricing of the selected model: input rate in USD. -/
def inputRate : ℚ := 0.075 / 1000000

/-- Per-token pricing of the selected model: output rate in USD. -/
def outputRate : ℚ := 0.30 / 1000000

/-- Model of `LLMService.extract_data`: build the prompt, call the endpoint; on
success compute the cost from token usage and normalize the parsed JSON
against the schema (every schema field present, extra fields dropped);
on any exception (failed call or unparseable content) return all fields
absent with cost `0`.  The function is total: no exception propagates. -/
def extract_data (oracle : LLMOracle) (text : String)
    (extraction_schema : Schema) (label : Option String) : JsonObj × ℚ :=
  match oracle (build_prompt text extraction_schema label) with
  | .error _ => (allAbsent extraction_schema, 0)
  | .ok response =>
    match response.parsed with
    | none => (allAbsent extraction_schema, 0)
    | some result_json =>
      let cost : ℚ :=
        response.prompt_tokens * inputRate + response.completion_tokens * outputRate
      (extraction_schema.map (fun p => (p.1, jsonGet result_json p.1)), cost)

/-- Python truthiness of the extracted text as used by `if not text:`
in the orchestrator: `None` and the empty string are falsy. -/
def truthyText : Option String → Option String
  | none => none
  | some t => if t = "" then none else some t

/-- Model of `ExtractionService.extract`: cache lookup, then on miss first-page
text extraction, then the LLM call, then cache store.  The cache is
threaded explicitly; the pair returned is (result envelope, new cache). -/
def extract (sha256 : ByteSeq → String) (pdfParse : PdfOracle)
    (llm : LLMOracle) (c : Cache) (pdf_content : ByteSeq)
    (extraction_schema : Schema) (label : Option String) :
    ExtractionResult × Cache :=
  match CacheService.get sha256 c pdf_content extraction_schema with
  | some cached =>
    ({ extracted_data := cached.extracted_data, cost := cached.cost,
       processing_time := 0, cache_hit := true }, c)
  | none =>
    match truthyText (extract_text_from_pdf pdfParse pdf_content) with
    | none =>
      ({ extracted_data := allAbsent extraction_schema, cost := 0,
         processing_time := 0, cache_hit := false }, c)
    | some text =>
      let step := extract_data llm text extraction_schema label
      let result : ExtractionResult :=
        { extracted_data := step.1, cost := step.2,
          processing_time := 0, cache_hit := false }
      (result, CacheService.set sha256 c pdf_content extraction_schema result)

/-- One item of the batch request body. -/
structure BatchItem where
  label : String
  extraction_schema : Schema
  pdf_path : String

/-- Oracle for the file system: a path either resolves to readable bytes
or not (covering both `os.path.exists` and the read). -/
abbrev FileSystem := String → Option ByteSeq

/-- Path resolution of the batch endpoint: the path as given, else
relative to the `files` directory, else failure. -/
def resolvePdf (fs : FileSystem) (p : String) : Option ByteSeq :=
  match fs p with
  | some b => some b
  | none => fs ("files/" ++ p)

/-- The batch response: per-item results in order, summed cost, and the
final cache state (threaded through the model). -/
structure BatchResponse where
  results : List ExtractionResult
  total_cost : ℚ
  cache : Cache

/-- One iteration of the batch loop: resolve and read the PDF, run the
pipeline; any exception at the item boundary is caught and replaced by
an all-absent zero-cost record, leaving the cache untouched.  Returns
(item response, cost contribution, new cache). -/
def processItem (sha256 : ByteSeq → String) (pdfParse : PdfOracle)
    (llm : LLMOracle) (fs : FileSystem) (c : Cache) (item : BatchItem) :
    ExtractionResult × ℚ × Cache :=
  match resolvePdf fs item.pdf_path with
  | none =>
    ({ extracted_data := allAbsent item.extraction_schema, cost := 0,
       processing_time := 0, cache_hit := false }, 0, c)
  | some pdf_content =>
    let step := extract sha256 pdfParse llm c pdf_content
      item.extraction_schema (some item.label)
    (step.1, step.1.cost, step.2)

/-- Model of the batch endpoint `extract_batch`: process the requests strictly one at a time in
input order, appending each result as it is produced and summing costs. -/
def extract_batch (sha256 : ByteSeq → String) (pdfParse : PdfOracle)
    (llm : LLMOracle) (fs : FileSystem) (c : Cache) (items : List BatchItem) :
    BatchResponse :=
  match items with
  | [] => { results := [], total_cost := 0, cache := c }
  | item :: rest =>
    let step := processItem sha256 pdfParse llm fs c item
    let tail := extract_batch sha256 pdfParse llm fs step.2.2 rest
    { results := step.1 :: tail.results,
      total_cost := step.2.1 + tail.total_cost,
      cache := tail.cache }

/-- Strict order on schema entries by field name. -/
def keyLt (a b : String × String) : Prop := a.1 < b.1

instance : IsAntisymm (String × String) keyLt :=
  ⟨fun _ _ h1 h2 => absurd h2 (lt_asymm h1)⟩

/-- Concrete hash oracle used by evaluation witnesses. -/
def shaW : ByteSeq → String := fun _ => "h"

/-- Concrete PDF oracle whose single page carries the text "x". -/
def pdfTextW : PdfOracle := fun _ => Except.ok [some "x"]

/-- Concrete PDF oracle for a document with zero pages. -/
def pdfEmptyW : PdfOracle := fun _ => Except.ok []

/-- Concrete PDF oracle that raises on every document. -/
def pdfErrW : PdfOracle := fun _ => Except.error ()

/-- Concrete completion oracle that raises on every call. -/
def llmFailW : LLMOracle := fun _ => Except.error ()

/-- Concrete one-field schema used by evaluation witnesses. -/
def schemaW : Schema := [("a", "d")]

/-! ### Cache lemmas -/

theorem cacheLookup_insert_self (c : Cache) (k : String) (v : ExtractionResult) :
    cacheLookup (cacheInsert c k v) k = some v := by
  induction c with
  | nil => simp [cacheInsert, cacheLookup]
  | cons hd tl ih =>
    obtain ⟨k2, v2⟩ := hd
    by_cases h : k2 = k
    · simp [cacheInsert, cacheLookup, h]
    · simp [cacheInsert, cacheLookup, h, ih]

theorem cacheInsert_length (c : Cache) (k : String) (v : ExtractionResult) :
    (cacheInsert c k v).length =
      if (cacheLookup c k).isSome then c.length else c.length + 1 := by
  induction c with
  | nil => simp [cacheInsert, cacheLookup]
  | cons hd tl ih =>
    obtain ⟨k2, v2⟩ := hd
    by_cases h : k2 = k
    · simp [cacheInsert, cacheLookup, h]
    · simp only [cacheInsert, cacheLookup, h, if_neg, if_false, List.length_cons, ih]
      by_cases h2 : (cacheLookup tl k).isSome <;> simp [h2]

/-! ### Canonicalization lemmas -/

theorem sorted_keyLt_of_nodup (l : List (String × String))
    (hs : List.Sorted keyLe l) (hnd : (l.map Prod.fst).Nodup) :
    List.Sorted keyLt l := by
  induction l with
  | nil => exact List.Pairwise.nil
  | cons a t ih =>
    rw [List.sorted_cons] at hs ⊢
    rw [List.map_cons, List.nodup_cons] at hnd
    refine ⟨fun b hb => ?_, ih hs.2 hnd.2⟩
    have hne : a.1 ≠ b.1 := fun he => hnd.1 (he ▸ List.mem_map_of_mem Prod.fst hb)
    exact lt_of_le_of_ne (hs.1 b hb) hne

theorem insertionSort_eq_of_perm (s1 s2 : Schema) (hperm : s1.Perm s2)
    (hnd : (s1.map Prod.fst).Nodup) :
    List.insertionSort keyLe s1 = List.insertionSort keyLe s2 := by
  have hp : (List.insertionSort keyLe s1).Perm (List.insertionSort keyLe s2) :=
    (List.perm_insertionSort keyLe s1).trans
      (hperm.trans (List.perm_insertionSort keyLe s2).symm)
  have hnd1 : ((List.insertionSort keyLe s1).map Prod.fst).Nodup :=
    (((List.perm_insertionSort keyLe s1).map Prod.fst).nodup_iff).mpr hnd
  have hnd2 : ((List.insertionSort keyLe s2).map Prod.fst).Nodup :=
    ((hp.map Prod.fst).nodup_iff).mp hnd1
  exact List.eq_of_perm_of_sorted hp
    (sorted_keyLt_of_nodup _ (List.sorted_insertionSort keyLe s1) hnd1)
    (sorted_keyLt_of_nodup _ (List.sorted_insertionSort keyLe s2) hnd2)

/-- C2: two schemas holding the same field-name/description pairs in a
different insertion order produce the same cache key, hence identical
lookup and store behaviour for every document and cache state. -/
theorem generate_key_schema_order_irrelevant (sha256 : ByteSeq → String)
    (pdf_content : ByteSeq) (s1 s2 : Schema) (hperm : s1.Perm s2)
    (hnd : (s1.map Prod.fst).Nodup) :
    generate_key sha256 pdf_content s1 = generate_key sha256 pdf_content s2 ∧
    (∀ c : Cache, CacheService.get sha256 c pdf_content s1 =
      CacheService.get sha256 c pdf_content s2) ∧
    (∀ (c : Cache) (r : ExtractionResult),
      CacheService.set sha256 c pdf_content s1 r =
        CacheService.set sha256 c pdf_content s2 r) := by
  have hd : dumpsSorted s1 = dumpsSorted s2 := by
    unfold dumpsSorted
    rw [insertionSort_eq_of_perm s1 s2 hperm hnd]
  have hk : generate_key sha256 pdf_content s1 = generate_key sha256 pdf_content s2 := by
    unfold generate_key
    rw [hd]
  exact ⟨hk, fun c => by unfold CacheService.get; rw [hk],
    fun c r => by unfold CacheService.set; rw [hk]⟩

/-- Witness for C2 at a concrete pair of reordered schemas. -/
theorem generate_key_schema_order_irrelevant_witness :
    ([("b", "1"), ("a", "2")] : Schema).Perm [("a", "2"), ("b", "1")] ∧
    (generate_key (fun _ => "h") [1] [("b", "1"), ("a", "2")] =
        generate_key (fun _ => "h") [1] [("a", "2"), ("b", "1")] ∧
      (∀ c : Cache, CacheService.get (fun _ => "h") c [1] [("b", "1"), ("a", "2")] =
        CacheService.get (fun _ => "h") c [1] [("a", "2"), ("b", "1")]) ∧
      (∀ (c : Cache) (r : ExtractionResult),
        CacheService.set (fun _ => "h") c [1] [("b", "1"), ("a", "2")] r =
          CacheService.set (fun _ => "h") c [1] [("a", "2"), ("b", "1")] r)) :=
  ⟨by decide,
    generate_key_schema_order_irrelevant (fun _ => "h") [1]
      [("b", "1"), ("a", "2")] [("a", "2"), ("b", "1")] (by decide) (by decide)⟩

/-- C10: storing a result and reading it back with the same document and
schema returns exactly the stored result, and the size grows by one when
the key was absent and is unchanged when it was present. -/
theorem cache_set_get_roundtrip (sha256 : ByteSeq → String) (c : Cache)
    (pdf_content : ByteSeq) (extraction_schema : Schema) (r : ExtractionResult) :
    CacheService.get sha256 (CacheService.set sha256 c pdf_content extraction_schema r)
        pdf_content extraction_schema = some r ∧
    CacheService.size (CacheService.set sha256 c pdf_content extraction_schema r) =
      (if (CacheService.get sha256 c pdf_content extraction_schema).isSome
        then CacheService.size c else CacheService.size c + 1) := by
  unfold CacheService.get CacheService.set CacheService.size
  exact ⟨cacheLookup_insert_self c _ r, cacheInsert_length c _ r⟩

/-! ### Pipeline lemmas -/

theorem CacheService.get_set_self (sha256 : ByteSeq → String) (c : Cache)
    (pdf_content : ByteSeq) (extraction_schema : Schema) (r : ExtractionResult) :
    CacheService.get sha256 (CacheService.set sha256 c pdf_content extraction_schema r)
      pdf_content extraction_schema = some r :=
  cacheLookup_insert_self c _ r

theorem truthyText_extract_text (pdfParse : PdfOracle) (pdf_content : ByteSeq) :
    truthyText (extract_text_from_pdf pdfParse pdf_content) =
      extract_text_from_pdf pdfParse pdf_content := by
  unfold extract_text_from_pdf truthyText
  cases pdfParse pdf_content with
  | error e => rfl
  | ok pages =>
    cases pages with
    | nil => rfl
    | cons p0 rest =>
      cases p0 with
      | none => rfl
      | some t => by_cases h : t = "" <;> simp [h]

/-- A failing remote call, or content that does not parse as a JSON
object, yields all schema fields absent with zero cost. -/
theorem extract_data_fail_aux (oracle : LLMOracle) (text : String)
    (extraction_schema : Schema) (label : Option String)
    (hfail :
      (∃ e, oracle (build_prompt text extraction_schema label) = .error e) ∨
      (∃ resp, oracle (build_prompt text extraction_schema label) = .ok resp ∧
        resp.parsed = none)) :
    extract_data oracle text extraction_schema label = (allAbsent extraction_schema, 0) := by
  unfold extract_data
  rcases hfail with ⟨e, he⟩ | ⟨resp, hok, hp⟩
  · simp [he]
  · simp [hok, hp]

/-- The field list of the data returned by the LLM client is always
exactly the schema field list, in order. -/
theorem extract_data_fst_keys (oracle : LLMOracle) (text : String)
    (extraction_schema : Schema) (label : Option String) :
    ((extract_data oracle text extraction_schema label).1).map Prod.fst =
      extraction_schema.map Prod.fst := by
  unfold extract_data
  cases hr : oracle (build_prompt text extraction_schema label) with
  | error e => simp [allAbsent, List.map_map, Function.comp]
  | ok resp =>
    cases hp : resp.parsed with
    | none => simp [hp, allAbsent, List.map_map, Function.comp]
    | some j => simp [hp, List.map_map, Function.comp]

/-- C4: if the remote call raises any error, or its content is malformed
JSON, `extract_data` returns every schema field set to the absence
marker together with cost 0; being a total function of its inputs, it
propagates no exception to the caller. -/
theorem extract_data_failure_absent (oracle : LLMOracle) (text : String)
    (extraction_schema : Schema) (label : Option String)
    (hfail :
      (∃ e, oracle (build_prompt text extraction_schema label) = .error e) ∨
      (∃ resp, oracle (build_prompt text extraction_schema label) = .ok resp ∧
        resp.parsed = none)) :
    extract_data oracle text extraction_schema label = (allAbsent extraction_schema, 0) :=
  extract_data_fail_aux oracle text extraction_schema label hfail

/-- Witness for C4 with an oracle that raises on every call. -/
theorem extract_data_failure_absent_witness :
    ((∃ e, (fun _ => (Except.error () : Except Unit LLMResponse))
        (build_prompt "t" [("a", "d")] none) = .error e) ∨
      (∃ resp, (fun _ => (Except.error () : Except Unit LLMResponse))
        (build_prompt "t" [("a", "d")] none) = .ok resp ∧ resp.parsed = none)) ∧
    extract_data (fun _ => (Except.error () : Except Unit LLMResponse))
      "t" [("a", "d")] none = (allAbsent [("a", "d")], 0) :=
  ⟨Or.inl ⟨(), rfl⟩,
    extract_data_failure_absent _ "t" [("a", "d")] none (Or.inl ⟨(), rfl⟩)⟩

/-- C9: on a successful call whose content parses as a JSON object, the
reported cost is prompt tokens times the input rate plus completion
tokens times the output rate. -/
theorem extract_data_cost_formula (oracle : LLMOracle) (text : String)
    (extraction_schema : Schema) (label : Option String)
    (resp : LLMResponse) (j : JsonObj)
    (hok : oracle (build_prompt text extraction_schema label) = .ok resp)
    (hj : resp.parsed = some j) :
    (extract_data oracle text extraction_schema label).2 =
      resp.prompt_tokens * ((0.075 : ℚ) / 1000000) +
        resp.completion_tokens * ((0.30 : ℚ) / 1000000) := by
  unfold extract_data
  simp [hok, hj, inputRate, outputRate]

/-- Witness for C9: 100 input tokens and 20 output tokens cost exactly
0.0000135. -/
theorem extract_data_cost_formula_witness :
    (((fun _ => Except.ok ⟨some [], 100, 20⟩) : LLMOracle)
        (build_prompt "t" [("a", "d")] none) =
          Except.ok (⟨some [], 100, 20⟩ : LLMResponse) ∧
      (⟨some [], 100, 20⟩ : LLMResponse).parsed = some []) ∧
    (extract_data ((fun _ => Except.ok ⟨some [], 100, 20⟩) : LLMOracle)
        "t" [("a", "d")] none).2 = (0.0000135 : ℚ) := by
  refine ⟨⟨rfl, rfl⟩, ?_⟩
  rw [extract_data_cost_formula
    ((fun _ => Except.ok ⟨some [], 100, 20⟩) : LLMOracle)
    "t" [("a", "d")] none ⟨some [], 100, 20⟩ [] rfl rfl]
  norm_num

/-- C6 counterexample: a first page whose extracted text is a single
space, hence whitespace-only but non-empty, is returned as extracted
text rather than mapped to the absence signal. -/
theorem extract_text_whitespace_counterexample :
    extract_text_from_pdf (fun _ => Except.ok [some " "]) [] = some " " := rfl

/-- C6 (amended): only empty (or missing) first-page text is mapped to
the absence signal; any non-empty text, whitespace-only included, is
returned unchanged, because the source tests Python truthiness only. -/
theorem extract_text_empty_absent (pdfParse : PdfOracle) (pdf_content : ByteSeq)
    (t : String) (rest : List (Option String))
    (h : pdfParse pdf_content = .ok (some t :: rest)) :
    extract_text_from_pdf pdfParse pdf_content = if t = "" then none else some t := by
  simp [extract_text_from_pdf, h]

/-- Witness for amended C6 at an empty first-page text. -/
theorem extract_text_empty_absent_witness :
    ((fun _ => Except.ok [some ""]) : PdfOracle) [] = Except.ok [some ""] ∧
    extract_text_from_pdf ((fun _ => Except.ok [some ""]) : PdfOracle) [] =
      (if "" = "" then none else some "") :=
  ⟨rfl, extract_text_empty_absent ((fun _ => Except.ok [some ""]) : PdfOracle) [] "" [] rfl⟩

/-! ### Orchestrator path lemmas -/

/-- On a cache hit, `extract` returns the cached data and cost with the
hit flag set, leaving the cache untouched. -/
theorem extract_hit (sha256 : ByteSeq → String) (pdfParse : PdfOracle)
    (llm : LLMOracle) (c : Cache) (pdf_content : ByteSeq)
    (extraction_schema : Schema) (label : Option String) (r : ExtractionResult)
    (hhit : CacheService.get sha256 c pdf_content extraction_schema = some r) :
    extract sha256 pdfParse llm c pdf_content extraction_schema label =
      ({ extracted_data := r.extracted_data, cost := r.cost,
         processing_time := 0, cache_hit := true }, c) := by
  unfold extract
  rw [hhit]

/-- On a miss with no truthy text, `extract` short-circuits to the
all-absent zero-cost envelope and does not touch the cache. -/
theorem extract_no_text_aux (sha256 : ByteSeq → String) (pdfParse : PdfOracle)
    (llm : LLMOracle) (c : Cache) (pdf_content : ByteSeq)
    (extraction_schema : Schema) (label : Option String)
    (hmiss : CacheService.get sha256 c pdf_content extraction_schema = none)
    (ht : truthyText (extract_text_from_pdf pdfParse pdf_content) = none) :
    extract sha256 pdfParse llm c pdf_content extraction_schema label =
      ({ extracted_data := allAbsent extraction_schema, cost := 0,
         processing_time := 0, cache_hit := false }, c) := by
  unfold extract
  rw [hmiss, ht]

/-- On a miss with truthy text, `extract` runs the LLM client and stores
the resulting envelope under the composite key. -/
theorem extract_miss_text_aux (sha256 : ByteSeq → String) (pdfParse : PdfOracle)
    (llm : LLMOracle) (c : Cache) (pdf_content : ByteSeq)
    (extraction_schema : Schema) (label : Option String) (t : String)
    (hmiss : CacheService.get sha256 c pdf_content extraction_schema = none)
    (ht : truthyText (extract_text_from_pdf pdfParse pdf_content) = some t) :
    extract sha256 pdfParse llm c pdf_content extraction_schema label =
      ({ extracted_data := (extract_data llm t extraction_schema label).1,
         cost := (extract_data llm t extraction_schema label).2,
         processing_time := 0, cache_hit := false },
       CacheService.set sha256 c pdf_content extraction_schema
        { extracted_data := (extract_data llm t extraction_schema label).1,
          cost := (extract_data llm t extraction_schema label).2,
          processing_time := 0, cache_hit := false }) := by
  unfold extract
  rw [hmiss, ht]

/-! ### Claims about the orchestrator -/

/-- C1 (amended): for a pair whose key is not yet in the cache and whose
text extraction yields text, two successive identical calls yield a miss
then a hit, with identical extracted data and identical cost. -/
theorem extract_twice_miss_then_hit (sha256 : ByteSeq → String)
    (pdfParse : PdfOracle) (llm : LLMOracle) (c : Cache)
    (pdf_content : ByteSeq) (extraction_schema : Schema)
    (label : Option String) (t : String)
    (hmiss : CacheService.get sha256 c pdf_content extraction_schema = none)
    (htext : extract_text_from_pdf pdfParse pdf_content = some t) :
    (extract sha256 pdfParse llm c pdf_content extraction_schema label).1.cache_hit = false ∧
    (extract sha256 pdfParse llm
        (extract sha256 pdfParse llm c pdf_content extraction_schema label).2
        pdf_content extraction_schema label).1.cache_hit = true ∧
    (extract sha256 pdfParse llm
        (extract sha256 pdfParse llm c pdf_content extraction_schema label).2
        pdf_content extraction_schema label).1.extracted_data =
      (extract sha256 pdfParse llm c pdf_content extraction_schema label).1.extracted_data ∧
    (extract sha256 pdfParse llm
        (extract sha256 pdfParse llm c pdf_content extraction_schema label).2
        pdf_content extraction_schema label).1.cost =
      (extract sha256 pdfParse llm c pdf_content extraction_schema label).1.cost := by
  have ht : truthyText (extract_text_from_pdf pdfParse pdf_content) = some t := by
    rw [truthyText_extract_text, htext]
  have h1 := extract_miss_text_aux sha256 pdfParse llm c pdf_content
    extraction_schema label t hmiss ht
  have h2 : CacheService.get sha256
      (extract sha256 pdfParse llm c pdf_content extraction_schema label).2
      pdf_content extraction_schema =
      some (extract sha256 pdfParse llm c pdf_content extraction_schema label).1 := by
    rw [h1]
    exact CacheService.get_set_self sha256 c pdf_content extraction_schema _
  have h3 := extract_hit sha256 pdfParse llm
    (extract sha256 pdfParse llm c pdf_content extraction_schema label).2
    pdf_content extraction_schema label
    (extract sha256 pdfParse llm c pdf_content extraction_schema label).1 h2
  refine ⟨?_, ?_, ?_, ?_⟩
  · rw [h1]
  · rw [h3]
  · rw [h3]
  · rw [h3]

/-- Witness for amended C1 on a concrete document, schema and oracles. -/
theorem extract_twice_miss_then_hit_witness :
    (CacheService.get shaW [] [0] schemaW = none ∧
      extract_text_from_pdf pdfTextW [0] = some "x") ∧
    ((extract shaW pdfTextW llmFailW [] [0] schemaW none).1.cache_hit = false ∧
      (extract shaW pdfTextW llmFailW
          (extract shaW pdfTextW llmFailW [] [0] schemaW none).2
          [0] schemaW none).1.cache_hit = true ∧
      (extract shaW pdfTextW llmFailW
          (extract shaW pdfTextW llmFailW [] [0] schemaW none).2
          [0] schemaW none).1.extracted_data =
        (extract shaW pdfTextW llmFailW [] [0] schemaW none).1.extracted_data ∧
      (extract shaW pdfTextW llmFailW
          (extract shaW pdfTextW llmFailW [] [0] schemaW none).2
          [0] schemaW none).1.cost =
        (extract shaW pdfTextW llmFailW [] [0] schemaW none).1.cost) :=
  ⟨⟨rfl, rfl⟩,
    extract_twice_miss_then_hit shaW pdfTextW llmFailW [] [0] schemaW none "x" rfl rfl⟩

/-- C1 counterexample: for a document whose text extraction fails, the
second of two identical calls still reports a cache miss, refuting the
claim as stated for arbitrary (documentBytes, schema) pairs. -/
theorem extract_twice_counterexample :
    (extract shaW pdfErrW llmFailW
        (extract shaW pdfErrW llmFailW [] [0] schemaW none).2
        [0] schemaW none).1.cache_hit = false := rfl

/-- C3: on a miss where text extraction signals absence, `extract`
returns every schema field absent with cost 0 and no hit, and the cache
after the call is exactly the cache before it. -/
theorem extract_no_text_no_store (sha256 : ByteSeq → String)
    (pdfParse : PdfOracle) (llm : LLMOracle) (c : Cache)
    (pdf_content : ByteSeq) (extraction_schema : Schema) (label : Option String)
    (hmiss : CacheService.get sha256 c pdf_content extraction_schema = none)
    (htext : extract_text_from_pdf pdfParse pdf_content = none) :
    extract sha256 pdfParse llm c pdf_content extraction_schema label =
      ({ extracted_data := allAbsent extraction_schema, cost := 0,
         processing_time := 0, cache_hit := false }, c) := by
  have ht : truthyText (extract_text_from_pdf pdfParse pdf_content) = none := by
    rw [truthyText_extract_text, htext]
  exact extract_no_text_aux sha256 pdfParse llm c pdf_content
    extraction_schema label hmiss ht

/-- Witness for C3 on a zero-page document and an empty cache. -/
theorem extract_no_text_no_store_witness :
    (CacheService.get shaW [] [0] schemaW = none ∧
      extract_text_from_pdf pdfEmptyW [0] = none) ∧
    extract shaW pdfEmptyW llmFailW [] [0] schemaW none =
      ({ extracted_data := allAbsent schemaW, cost := 0,
         processing_time := 0, cache_hit := false }, []) :=
  ⟨⟨rfl, rfl⟩,
    extract_no_text_no_store shaW pdfEmptyW llmFailW [] [0] schemaW none rfl rfl⟩

/-- C5: on a miss with extractable text and a failing LLM call, the
all-absent zero-cost envelope is stored under the key, and a second
identical call is served from the cache: hit flag set, same all-absent
data, cost 0 (the hit path never consults the LLM oracle). -/
theorem extract_llm_failure_cached (sha256 : ByteSeq → String)
    (pdfParse : PdfOracle) (llm : LLMOracle) (c : Cache)
    (pdf_content : ByteSeq) (extraction_schema : Schema)
    (label : Option String) (t : String)
    (hmiss : CacheService.get sha256 c pdf_content extraction_schema = none)
    (htext : extract_text_from_pdf pdfParse pdf_content = some t)
    (hfail :
      (∃ e, llm (build_prompt t extraction_schema label) = .error e) ∨
      (∃ resp, llm (build_prompt t extraction_schema label) = .ok resp ∧
        resp.parsed = none)) :
    (extract sha256 pdfParse llm c pdf_content extraction_schema label).1 =
      { extracted_data := allAbsent extraction_schema, cost := 0,
        processing_time := 0, cache_hit := false } ∧
    CacheService.get sha256
        (extract sha256 pdfParse llm c pdf_content extraction_schema label).2
        pdf_content extraction_schema =
      some (extract sha256 pdfParse llm c pdf_content extraction_schema label).1 ∧
    (extract sha256 pdfParse llm
        (extract sha256 pdfParse llm c pdf_content extraction_schema label).2
        pdf_content extraction_schema label).1.cache_hit = true ∧
    (extract sha256 pdfParse llm
        (extract sha256 pdfParse llm c pdf_content extraction_schema label).2
        pdf_content extraction_schema label).1.extracted_data =
      allAbsent extraction_schema ∧
    (extract sha256 pdfParse llm
        (extract sha256 pdfParse llm c pdf_content extraction_schema label).2
        pdf_content extraction_schema label).1.cost = 0 := by
  have ht : truthyText (extract_text_from_pdf pdfParse pdf_content) = some t := by
    rw [truthyText_extract_text, htext]
  have hdata := extract_data_fail_aux llm t extraction_schema label hfail
  have h1 : extract sha256 pdfParse llm c pdf_content extraction_schema label =
      ({ extracted_data := allAbsent extraction_schema, cost := 0,
         processing_time := 0, cache_hit := false },
       CacheService.set sha256 c pdf_content extraction_schema
        { extracted_data := allAbsent extraction_schema, cost := 0,
          processing_time := 0, cache_hit := false }) := by
    rw [extract_miss_text_aux sha256 pdfParse llm c pdf_content
      extraction_schema label t hmiss ht, hdata]
  have h2 : CacheService.get sha256
      (extract sha256 pdfParse llm c pdf_content extraction_schema label).2
      pdf_content extraction_schema =
      some (extract sha256 pdfParse llm c pdf_content extraction_schema label).1 := by
    rw [h1]
    exact CacheService.get_set_self sha256 c pdf_content extraction_schema _
  have h3 := extract_hit sha256 pdfParse llm
    (extract sha256 pdfParse llm c pdf_content extraction_schema label).2
    pdf_content extraction_schema label
    (extract sha256 pdfParse llm c pdf_content extraction_schema label).1 h2
  refine ⟨by rw [h1], h2, ?_, ?_, ?_⟩
  · rw [h3]
  · rw [h3, h1]
  · rw [h3, h1]

/-- Witness for C5 on a concrete document, schema and failing oracle. -/
theorem extract_llm_failure_cached_witness :
    (CacheService.get shaW [] [0] schemaW = none ∧
      extract_text_from_pdf pdfTextW [0] = some "x" ∧
      ((∃ e, llmFailW (build_prompt "x" schemaW none) = .error e) ∨
        (∃ resp, llmFailW (build_prompt "x" schemaW none) = .ok resp ∧
          resp.parsed = none))) ∧
    ((extract shaW pdfTextW llmFailW [] [0] schemaW none).1 =
      { extracted_data := allAbsent schemaW, cost := 0,
        processing_time := 0, cache_hit := false } ∧
    CacheService.get shaW
        (extract shaW pdfTextW llmFailW [] [0] schemaW none).2 [0] schemaW =
      some (extract shaW pdfTextW llmFailW [] [0] schemaW none).1 ∧
    (extract shaW pdfTextW llmFailW
        (extract shaW pdfTextW llmFailW [] [0] schemaW none).2
        [0] schemaW none).1.cache_hit = true ∧
    (extract shaW pdfTextW llmFailW
        (extract shaW pdfTextW llmFailW [] [0] schemaW none).2
        [0] schemaW none).1.extracted_data = allAbsent schemaW ∧
    (extract shaW pdfTextW llmFailW
        (extract shaW pdfTextW llmFailW [] [0] schemaW none).2
        [0] schemaW none).1.cost = 0) :=
  ⟨⟨rfl, rfl, Or.inl ⟨(), rfl⟩⟩,
    extract_llm_failure_cached shaW pdfTextW llmFailW [] [0] schemaW none "x"
      rfl rfl (Or.inl ⟨(), rfl⟩)⟩

/-- C8: on every path through `extract` the key list of the returned
data is exactly the schema field list, provided any cached entry under
this key was stored with matching fields. -/
theorem extract_keys_match_schema (sha256 : ByteSeq → String)
    (pdfParse : PdfOracle) (llm : LLMOracle) (c : Cache)
    (pdf_content : ByteSeq) (extraction_schema : Schema) (label : Option String)
    (hwf : ∀ r, CacheService.get sha256 c pdf_content extraction_schema = some r →
      r.extracted_data.map Prod.fst = extraction_schema.map Prod.fst) :
    ((extract sha256 pdfParse llm c pdf_content
        extraction_schema label).1.extracted_data).map Prod.fst =
      extraction_schema.map Prod.fst := by
  cases hc : CacheService.get sha256 c pdf_content extraction_schema with
  | some cached =>
    rw [extract_hit sha256 pdfParse llm c pdf_content extraction_schema label cached hc]
    exact hwf cached hc
  | none =>
    cases ht : truthyText (extract_text_from_pdf pdfParse pdf_content) with
    | none =>
      rw [extract_no_text_aux sha256 pdfParse llm c pdf_content
        extraction_schema label hc ht]
      simp [allAbsent, List.map_map, Function.comp]
    | some t =>
      rw [extract_miss_text_aux sha256 pdfParse llm c pdf_content
        extraction_schema label t hc ht]
      exact extract_data_fst_keys llm t extraction_schema label

/-- Witness for C8 on the no-text path over an empty cache. -/
theorem extract_keys_match_schema_witness :
    (∀ r, CacheService.get shaW [] [0] schemaW = some r →
      r.extracted_data.map Prod.fst = schemaW.map Prod.fst) ∧
    ((extract shaW pdfEmptyW llmFailW [] [0] schemaW none).1.extracted_data).map
        Prod.fst = schemaW.map Prod.fst :=
  ⟨fun r h => by simp [CacheService.get, cacheLookup] at h,
    extract_keys_match_schema shaW pdfEmptyW llmFailW [] [0] schemaW none
      (fun r h => by simp [CacheService.get, cacheLookup] at h)⟩

/-! ### Batch runner lemmas -/

theorem extract_batch_length (sha256 : ByteSeq → String) (pdfParse : PdfOracle)
    (llm : LLMOracle) (fs : FileSystem) :
    ∀ (c : Cache) (items : List BatchItem),
      ((extract_batch sha256 pdfParse llm fs c items).results).length = items.length := by
  intro c items
  induction items generalizing c with
  | nil => rfl
  | cons item rest ih => simp [extract_batch, ih]

theorem extract_batch_append (sha256 : ByteSeq → String) (pdfParse : PdfOracle)
    (llm : LLMOracle) (fs : FileSystem) (pre post : List BatchItem) :
    ∀ c : Cache,
      (extract_batch sha256 pdfParse llm fs c (pre ++ post)).results =
        (extract_batch sha256 pdfParse llm fs c pre).results ++
          (extract_batch sha256 pdfParse llm fs
            (extract_batch sha256 pdfParse llm fs c pre).cache post).results ∧
      (extract_batch sha256 pdfParse llm fs c (pre ++ post)).cache =
        (extract_batch sha256 pdfParse llm fs
          (extract_batch sha256 pdfParse llm fs c pre).cache post).cache := by
  induction pre with
  | nil => intro c; exact ⟨rfl, rfl⟩
  | cons a t ih =>
    intro c
    obtain ⟨h1, h2⟩ := ih (processItem sha256 pdfParse llm fs c a).2.2
    constructor
    · simp only [List.cons_append, extract_batch]
      exact congrArg ((processItem sha256 pdfParse llm fs c a).1 :: ·) h1
    · simp only [List.cons_append, extract_batch]
      exact h2

/-- A batch item whose path resolves nowhere yields the all-absent
zero-cost record, contributes no cost, and leaves the cache unchanged. -/
theorem processItem_fail (sha256 : ByteSeq → String) (pdfParse : PdfOracle)
    (llm : LLMOracle) (fs : FileSystem) (c : Cache) (item : BatchItem)
    (hfail : resolvePdf fs item.pdf_path = none) :
    processItem sha256 pdfParse llm fs c item =
      ({ extracted_data := allAbsent item.extraction_schema, cost := 0,
         processing_time := 0, cache_hit := false }, 0, c) := by
  unfold processItem
  rw [hfail]

/-- C7: the batch returns exactly one result per request in input order;
a request whose file fails to resolve is replaced by the all-absent
zero-cost record and the remaining requests are still processed, from
an unchanged cache state. -/
theorem extract_batch_item_isolation (sha256 : ByteSeq → String)
    (pdfParse : PdfOracle) (llm : LLMOracle) (fs : FileSystem) (c : Cache)
    (pre post : List BatchItem) (item : BatchItem)
    (hfail : resolvePdf fs item.pdf_path = none) :
    (extract_batch sha256 pdfParse llm fs c (pre ++ item :: post)).results =
      (extract_batch sha256 pdfParse llm fs c pre).results ++
        ({ extracted_data := allAbsent item.extraction_schema, cost := 0,
           processing_time := 0, cache_hit := false } ::
          (extract_batch sha256 pdfParse llm fs
            (extract_batch sha256 pdfParse llm fs c pre).cache post).results) ∧
    (∀ (c2 : Cache) (items : List BatchItem),
      ((extract_batch sha256 pdfParse llm fs c2 items).results).length =
        items.length) := by
  constructor
  · rw [(extract_batch_append sha256 pdfParse llm fs pre (item :: post) c).1]
    congr 1
    simp [extract_batch, processItem_fail sha256 pdfParse llm fs _ item hfail]
  · exact extract_batch_length sha256 pdfParse llm fs

/-- Witness for C7: a one-item batch whose file does not resolve. -/
theorem extract_batch_item_isolation_witness :
    resolvePdf (fun _ => none) (BatchItem.mk "l" schemaW "p").pdf_path = none ∧
    ((extract_batch shaW pdfErrW llmFailW (fun _ => none) []
        ([] ++ BatchItem.mk "l" schemaW "p" :: [])).results =
      (extract_batch shaW pdfErrW llmFailW (fun _ => none) [] []).results ++
        ({ extracted_data := allAbsent (BatchItem.mk "l" schemaW "p").extraction_schema,
           cost := 0, processing_time := 0, cache_hit := false } ::
          (extract_batch shaW pdfErrW llmFailW (fun _ => none)
            (extract_batch shaW pdfErrW llmFailW (fun _ => none) [] []).cache
            []).results) ∧
    (∀ (c2 : Cache) (items : List BatchItem),
      ((extract_batch shaW pdfErrW llmFailW (fun _ => none) c2 items).results).length =
        items.length)) :=
  ⟨rfl,
    extract_batch_item_isolation shaW pdfErrW llmFailW (fun _ => none) []
      [] [] (BatchItem.mk "l" schemaW "p") rfl⟩

end PdfExtract
